import Mathlib

/-!
Verification of the configuration-merge and lifecycle-orchestration core of
a multipass-based K3s cluster CLI.

The embedding covers:
* `deep_merge` from `src/utils.py` (the same algorithm appears as
  `merge_configs` in `src/main.py`), both as a pure value-level function on
  configuration trees and as a heap-level function that models Python's
  mutable dictionaries, so that the absence of input mutation can be stated.
* the VM filtering and the lifecycle operations `start_nodes`,
  `suspend_nodes`, `stop_nodes` from `src/k3s_operator.py` and
  `start_cluster`, `suspend_cluster`, `stop_cluster` from
  `src/cluster_operator.py`, as trace-producing functions over an abstract
  command-execution oracle and a confirmation answer.
* `_calculate_resources` from `model/cluster.py`, with Python `int()`
  conversion modelled strictly (an exception becomes `Option.none`).
-/

set_option maxHeartbeats 1000000

namespace MpcK3s

/-- Configuration values as produced by YAML loading in the source:
scalars (numbers, strings, booleans are all opaque here), sequences,
and nested mappings.  A mapping is an insertion-ordered association list
with (in Python) unique keys, exactly like a Python `dict`. -/
inductive Val where
  | scalar : String → Val
  | seq : List Val → Val
  | dict : List (String × Val) → Val

/-- A Python `dict` holding configuration data: insertion-ordered key/value
list. -/
abbrev Dict := List (String × Val)

/-- Python `d[k]` / `d.get(k)`: the value stored at key `k` (keys are unique
in a Python dict; we take the first occurrence). -/
def lookupD (d : Dict) (k : String) : Option Val :=
  match d.find? (fun p => p.1 = k) with
  | some p => some p.2
  | none => none

/-- Python `k in d`. -/
def containsKey (d : Dict) (k : String) : Bool :=
  d.any (fun p => p.1 = k)

/-- Python `d[k] = v` on an insertion-ordered dict: an existing key keeps its
position and gets the new value; a new key is appended at the end. -/
def setKey (d : Dict) (k : String) (v : Val) : Dict :=
  if containsKey d k then d.map (fun p => if p.1 = k then (k, v) else p)
  else d ++ [(k, v)]

mutual

/-- `deep_merge` from `src/utils.py` (the identical algorithm is
`merge_configs` in `src/main.py`): `result = base_dict.copy()`, then for each
`key, value` in `override_dict.items()`, if the key is already in the result
and both the stored value and the new value are dicts they are merged
recursively, otherwise the new value overrides.  The iteration is modelled by
structural recursion over the override items, threading the evolving
result. -/
def deep_merge (base : Dict) : Dict → Dict
  | [] => base
  | (k, v) :: rest => deep_merge (mergeKey base k v) rest
termination_by o => sizeOf o

/-- One iteration of the loop body of `deep_merge`: process override entry
`(k, v)` against the current result. -/
def mergeKey (result : Dict) (k : String) (v : Val) : Dict :=
  match lookupD result k, v with
  | some (Val.dict bsub), Val.dict osub => setKey result k (Val.dict (deep_merge bsub osub))
  | _, _ => setKey result k v
termination_by sizeOf v

end

theorem lookupD_nil (k : String) : lookupD [] k = none := rfl

theorem lookupD_cons (k₀ : String) (v₀ : Val) (d : Dict) (k : String) :
    lookupD ((k₀, v₀) :: d) k = if k₀ = k then some v₀ else lookupD d k := by
  by_cases h : k₀ = k <;> simp [lookupD, List.find?, h]

theorem lookupD_not_mem {d : Dict} {k : String} (h : k ∉ d.map Prod.fst) :
    lookupD d k = none := by
  induction d with
  | nil => rfl
  | cons p rest ih =>
      obtain ⟨k₀, v₀⟩ := p
      simp only [List.map_cons, List.mem_cons] at h
      push_neg at h
      rw [lookupD_cons, if_neg (fun hk => h.1 hk.symm), ih h.2]

theorem lookupD_append (d e : Dict) (k : String) :
    lookupD (d ++ e) k =
      match lookupD d k with
      | some v => some v
      | none => lookupD e k := by
  induction d with
  | nil => simp [lookupD_nil]
  | cons p rest ih =>
      obtain ⟨k₀, v₀⟩ := p
      by_cases h : k₀ = k
      · simp [List.cons_append, lookupD_cons, h]
      · simp only [List.cons_append, lookupD_cons, if_neg h]
        exact ih

theorem lookupD_of_contains_false {d : Dict} {k : String}
    (h : containsKey d k = false) : lookupD d k = none := by
  induction d with
  | nil => rfl
  | cons p rest ih =>
      obtain ⟨k₀, v₀⟩ := p
      simp only [containsKey, List.any_cons, Bool.or_eq_false_iff] at h
      rw [lookupD_cons, if_neg, ih]
      · simpa [containsKey] using h.2
      · simpa using h.1

theorem lookupD_map_replace_self {d : Dict} {k : String} (v : Val)
    (h : containsKey d k = true) :
    lookupD (d.map (fun p => if p.1 = k then (k, v) else p)) k = some v := by
  induction d with
  | nil => simp [containsKey] at h
  | cons p rest ih =>
      obtain ⟨k₀, v₀⟩ := p
      by_cases hk : k₀ = k
      · simp [hk, lookupD_cons]
      · simp only [containsKey, List.any_cons] at h
        simp only [List.map_cons, if_neg hk, lookupD_cons, if_neg hk]
        apply ih
        simpa [containsKey, hk] using h

theorem lookupD_map_replace_ne {d : Dict} {k k' : String} (v : Val)
    (h : k' ≠ k) :
    lookupD (d.map (fun p => if p.1 = k then (k, v) else p)) k' = lookupD d k' := by
  have hne : ¬ (k = k') := fun hkk => h hkk.symm
  induction d with
  | nil => rfl
  | cons p rest ih =>
      obtain ⟨k₀, v₀⟩ := p
      by_cases hk : k₀ = k
      · have hne₀ : ¬ (k₀ = k') := hk ▸ hne
        simp [hk, lookupD_cons, hne, hne₀, ih]
      · simp only [List.map_cons, if_neg hk, lookupD_cons, ih]

theorem lookupD_setKey_self (d : Dict) (k : String) (v : Val) :
    lookupD (setKey d k v) k = some v := by
  unfold setKey
  by_cases h : containsKey d k
  · rw [if_pos h]
    exact lookupD_map_replace_self v h
  · rw [if_neg h, lookupD_append,
      lookupD_of_contains_false (Bool.eq_false_iff.mpr h)]
    simp [lookupD_cons]

theorem lookupD_setKey_ne (d : Dict) (k k' : String) (v : Val) (h : k' ≠ k) :
    lookupD (setKey d k v) k' = lookupD d k' := by
  unfold setKey
  by_cases hc : containsKey d k
  · rw [if_pos hc]
    exact lookupD_map_replace_ne v h
  · rw [if_neg hc, lookupD_append]
    have hne : ¬ (k = k') := fun hk => h hk.symm
    rcases hl : lookupD d k' with _ | w
    · rw [lookupD_cons, if_neg hne]
      rfl
    · rfl

theorem mergeKey_lookup_ne (d : Dict) (k k' : String) (v : Val) (h : k' ≠ k) :
    lookupD (mergeKey d k v) k' = lookupD d k' := by
  rw [mergeKey.eq_def]
  split <;> exact lookupD_setKey_ne _ _ _ _ h

theorem mergeKey_lookup_self (d : Dict) (k : String) (v : Val) :
    lookupD (mergeKey d k v) k =
      match lookupD d k, v with
      | some (Val.dict bsub), Val.dict osub => some (Val.dict (deep_merge bsub osub))
      | _, _ => some v := by
  rw [mergeKey.eq_def]
  split
  · rename_i bsub osub hb
    rw [lookupD_setKey_self]
  · rename_i hno
    rw [lookupD_setKey_self]

theorem deep_merge_nil (base : Dict) : deep_merge base [] = base := by
  rw [deep_merge]

theorem deep_merge_cons (base : Dict) (k : String) (v : Val) (rest : Dict) :
    deep_merge base ((k, v) :: rest) = deep_merge (mergeKey base k v) rest := by
  rw [deep_merge]

theorem deep_merge_lookup_not_mem {o : Dict} {k : String} (d : Dict)
    (h : k ∉ o.map Prod.fst) :
    lookupD (deep_merge d o) k = lookupD d k := by
  induction o generalizing d with
  | nil => rw [deep_merge_nil]
  | cons p rest ih =>
      obtain ⟨k₀, v₀⟩ := p
      simp only [List.map_cons, List.mem_cons] at h
      push_neg at h
      rw [deep_merge_cons, ih _ h.2,
        mergeKey_lookup_ne _ _ _ _ h.1]

/-- C1: `deep_merge base override` maps each key present in `override` to the
recursive merge of `base[key]` and `override[key]` when both are dicts, and
to `override[key]` wholesale otherwise (in particular a sequence value in
`override` fully replaces the base value); every key present only in `base`
keeps its base value.  The hypothesis that the override's keys are pairwise
distinct is the Python `dict` invariant. -/
theorem deep_merge_override_semantics (base override : Dict)
    (h : (override.map Prod.fst).Nodup) (k : String) :
    lookupD (deep_merge base override) k =
      match lookupD base k, lookupD override k with
      | some (Val.dict bsub), some (Val.dict osub) =>
          some (Val.dict (deep_merge bsub osub))
      | _, some ov => some ov
      | _, none => lookupD base k := by
  revert h
  induction override generalizing base with
  | nil =>
      intro _
      rw [deep_merge_nil, lookupD_nil]
      rcases hb : lookupD base k with _ | bv
      · rfl
      · rcases bv with s | xs | dd <;> rfl
  | cons p rest ih =>
      intro h
      obtain ⟨k₀, v₀⟩ := p
      simp only [List.map_cons, List.nodup_cons] at h
      obtain ⟨hnot, hnd⟩ := h
      rw [deep_merge_cons]
      by_cases hk0 : k₀ = k
      · rw [hk0] at hnot ⊢
        rw [deep_merge_lookup_not_mem _ hnot, mergeKey_lookup_self,
          lookupD_cons, if_pos rfl]
        rcases hb : lookupD base k with _ | bv
        · rcases v₀ with s | xs | dd <;> rfl
        · rcases bv with s | xs | dd <;> rcases v₀ with s' | xs' | dd' <;> rfl
      · have hne : k ≠ k₀ := fun he => hk0 he.symm
        rw [ih _ hnd, mergeKey_lookup_ne _ _ _ _ hne, lookupD_cons, if_neg hk0]

/-- Concrete base/override pair used to witness C1. -/
def dmBase : Dict :=
  [("a", Val.dict [("x", Val.scalar "1"), ("y", Val.scalar "2")]),
   ("s", Val.seq [Val.scalar "b1", Val.scalar "b2"]),
   ("only", Val.scalar "base")]

/-- Concrete override used to witness C1. -/
def dmOv : Dict :=
  [("a", Val.dict [("y", Val.scalar "9")]),
   ("s", Val.seq [Val.scalar "n1"])]

/-- Witness for C1: the hypothesis (override keys distinct) holds for a
concrete pair of trees and the characterization applies at key `a`. -/
theorem deep_merge_override_semantics_witness :
    ((dmOv.map Prod.fst).Nodup) ∧
      lookupD (deep_merge dmBase dmOv) "a" =
        match lookupD dmBase "a", lookupD dmOv "a" with
        | some (Val.dict bsub), some (Val.dict osub) =>
            some (Val.dict (deep_merge bsub osub))
        | _, some ov => some ov
        | _, none => lookupD dmBase "a" :=
  ⟨by decide, deep_merge_override_semantics dmBase dmOv (by decide) "a"⟩

/-! ## Lifecycle orchestration (`src/k3s_operator.py`, `src/cluster_operator.py`)

The backend (`run_command` invoking `multipass`) is modelled by an oracle
`execOk : String → List String → Bool` giving the success of one batch
command for an operation and a list of VM names; the interactive
confirmation (`click.confirm`) is modelled by a boolean `ans` (each run asks
at most one confirmation).  A run produces a trace of events: each batch
gateway call and each confirmation prompt, in order. -/

/-- A backend-reported VM; the lifecycle code only reads its `name`. -/
structure Vm where
  name : String
deriving DecidableEq, Repr

/-- Python `str.lower()` on one character (ASCII case mapping, which covers
every name this program handles). -/
def pyLowerChar (c : Char) : Char :=
  if c.isUpper then Char.ofNat (c.toNat + 32) else c

/-- Python `str.lower()`, as the lowered character list of the string. -/
def pyLower (s : String) : List Char :=
  s.toList.map pyLowerChar

/-- Substring test on character lists, mirroring Python's `in` operator. -/
def charsContain (sub : List Char) : List Char → Bool
  | [] => sub.isEmpty
  | c :: rest => sub.isPrefixOf (c :: rest) || charsContain sub rest

/-- `filter_vms_by_name` from `src/utils.py`: keep the VMs whose name
contains the keyword, case-insensitively. -/
def filter_vms_by_name (vms : List Vm) (keyword : String) : List Vm :=
  vms.filter (fun vm => charsContain (pyLower keyword) (pyLower vm.name))

/-- `get_vm_names` from `src/utils.py`. -/
def get_vm_names (vms : List Vm) : List String :=
  vms.map Vm.name

/-- Observable events of a lifecycle run: a batch backend call
(`run_command(["multipass", cmd] + names)`) or a confirmation prompt with
the operator's answer. -/
inductive Event where
  | batch : String → List String → Event
  | confirm : Bool → Event
deriving DecidableEq, Repr

/-- The `operation_map` membership test of `operate_vms`. -/
def operation_supported (op : String) : Bool :=
  op = "start" || op = "suspend" || op = "stop"

/-- `operate_vms` from `src/k3s_operator.py` (the identical function appears
in `src/cluster_operator.py`): empty name list is an immediate success with
no backend call; otherwise one batch command is issued and its success
reported. Returns the success flag and the trace. -/
def operate_vms (execOk : String → List String → Bool) (vm_names : List String)
    (operation : String) : Bool × List Event :=
  if vm_names = [] then (true, [])
  else if operation_supported operation then
    (execOk operation vm_names, [Event.batch operation vm_names])
  else (false, [])

/-- `start_nodes` from `src/k3s_operator.py`: main nodes first; on batch
success ask confirmation; on decline or batch failure return early; then
worker nodes (result ignored).  Early returns are rendered as the
concatenation structure of the produced trace. -/
def start_nodes (execOk : String → List String → Bool) (ans : Bool)
    (vms : List Vm) : List Event :=
  if vms = [] then []
  else if filter_vms_by_name vms "main" ≠ [] then
    (operate_vms execOk (get_vm_names (filter_vms_by_name vms "main")) "start").2 ++
    (if (operate_vms execOk (get_vm_names (filter_vms_by_name vms "main")) "start").1 then
      [Event.confirm ans] ++
      (if ans then
        (if filter_vms_by_name vms "worker" ≠ [] then
          (operate_vms execOk (get_vm_names (filter_vms_by_name vms "worker")) "start").2
         else [])
       else [])
     else [])
  else
    (if filter_vms_by_name vms "worker" ≠ [] then
      (operate_vms execOk (get_vm_names (filter_vms_by_name vms "worker")) "start").2
     else [])

/-- `suspend_nodes` from `src/k3s_operator.py`: worker nodes first, then
main nodes, with the confirmation between the phases. -/
def suspend_nodes (execOk : String → List String → Bool) (ans : Bool)
    (vms : List Vm) : List Event :=
  if vms = [] then []
  else if filter_vms_by_name vms "worker" ≠ [] then
    (operate_vms execOk (get_vm_names (filter_vms_by_name vms "worker")) "suspend").2 ++
    (if (operate_vms execOk (get_vm_names (filter_vms_by_name vms "worker")) "suspend").1 then
      [Event.confirm ans] ++
      (if ans then
        (if filter_vms_by_name vms "main" ≠ [] then
          (operate_vms execOk (get_vm_names (filter_vms_by_name vms "main")) "suspend").2
         else [])
       else [])
     else [])
  else
    (if filter_vms_by_name vms "main" ≠ [] then
      (operate_vms execOk (get_vm_names (filter_vms_by_name vms "main")) "suspend").2
     else [])

/-- `stop_nodes` from `src/k3s_operator.py`: worker nodes first, then main
nodes, with the confirmation between the phases. -/
def stop_nodes (execOk : String → List String → Bool) (ans : Bool)
    (vms : List Vm) : List Event :=
  if vms = [] then []
  else if filter_vms_by_name vms "worker" ≠ [] then
    (operate_vms execOk (get_vm_names (filter_vms_by_name vms "worker")) "stop").2 ++
    (if (operate_vms execOk (get_vm_names (filter_vms_by_name vms "worker")) "stop").1 then
      [Event.confirm ans] ++
      (if ans then
        (if filter_vms_by_name vms "main" ≠ [] then
          (operate_vms execOk (get_vm_names (filter_vms_by_name vms "main")) "stop").2
         else [])
       else [])
     else [])
  else
    (if filter_vms_by_name vms "main" ≠ [] then
      (operate_vms execOk (get_vm_names (filter_vms_by_name vms "main")) "stop").2
     else [])

/-- Control-plane group selection of `src/cluster_operator.py`: keyword
`main` for k3s clusters, `control` for other types. -/
def control_group (cluster_type : String) (vms : List Vm) : List Vm :=
  if cluster_type = "k3s" then filter_vms_by_name vms "main"
  else filter_vms_by_name vms "control"

/-- `start_cluster` from `src/cluster_operator.py`: control plane first,
confirmation gate, then workers; any batch failure returns `False`;
declining the confirmation returns `True`. -/
def start_cluster (execOk : String → List String → Bool) (ans : Bool)
    (cluster_type : String) (vms : List Vm) : Bool × List Event :=
  if vms = [] then (false, [])
  else if control_group cluster_type vms ≠ [] then
    (if (operate_vms execOk (get_vm_names (control_group cluster_type vms)) "start").1 then
      (if ans then
        (if filter_vms_by_name vms "worker" ≠ [] then
          ((operate_vms execOk (get_vm_names (filter_vms_by_name vms "worker")) "start").1,
           (operate_vms execOk (get_vm_names (control_group cluster_type vms)) "start").2 ++
           [Event.confirm ans] ++
           (operate_vms execOk (get_vm_names (filter_vms_by_name vms "worker")) "start").2)
         else
          (true,
           (operate_vms execOk (get_vm_names (control_group cluster_type vms)) "start").2 ++
           [Event.confirm ans]))
       else
        (true,
         (operate_vms execOk (get_vm_names (control_group cluster_type vms)) "start").2 ++
         [Event.confirm ans]))
     else
      (false, (operate_vms execOk (get_vm_names (control_group cluster_type vms)) "start").2))
  else
    (if filter_vms_by_name vms "worker" ≠ [] then
      ((operate_vms execOk (get_vm_names (filter_vms_by_name vms "worker")) "start").1,
       (operate_vms execOk (get_vm_names (filter_vms_by_name vms "worker")) "start").2)
     else (true, []))

/-- `suspend_cluster` from `src/cluster_operator.py`: workers first,
confirmation gate, then control plane; any batch failure returns `False`;
declining the confirmation returns `True`. -/
def suspend_cluster (execOk : String → List String → Bool) (ans : Bool)
    (cluster_type : String) (vms : List Vm) : Bool × List Event :=
  if vms = [] then (false, [])
  else if filter_vms_by_name vms "worker" ≠ [] then
    (if (operate_vms execOk (get_vm_names (filter_vms_by_name vms "worker")) "suspend").1 then
      (if ans then
        (if control_group cluster_type vms ≠ [] then
          ((operate_vms execOk (get_vm_names (control_group cluster_type vms)) "suspend").1,
           (operate_vms execOk (get_vm_names (filter_vms_by_name vms "worker")) "suspend").2 ++
           [Event.confirm ans] ++
           (operate_vms execOk (get_vm_names (control_group cluster_type vms)) "suspend").2)
         else
          (true,
           (operate_vms execOk (get_vm_names (filter_vms_by_name vms "worker")) "suspend").2 ++
           [Event.confirm ans]))
       else
        (true,
         (operate_vms execOk (get_vm_names (filter_vms_by_name vms "worker")) "suspend").2 ++
         [Event.confirm ans]))
     else
      (false, (operate_vms execOk (get_vm_names (filter_vms_by_name vms "worker")) "suspend").2))
  else
    (if control_group cluster_type vms ≠ [] then
      ((operate_vms execOk (get_vm_names (control_group cluster_type vms)) "suspend").1,
       (operate_vms execOk (get_vm_names (control_group cluster_type vms)) "suspend").2)
     else (true, []))

/-- `stop_cluster` from `src/cluster_operator.py`: workers first,
confirmation gate, then control plane; any batch failure returns `False`;
declining the confirmation returns `True`. -/
def stop_cluster (execOk : String → List String → Bool) (ans : Bool)
    (cluster_type : String) (vms : List Vm) : Bool × List Event :=
  if vms = [] then (false, [])
  else if filter_vms_by_name vms "worker" ≠ [] then
    (if (operate_vms execOk (get_vm_names (filter_vms_by_name vms "worker")) "stop").1 then
      (if ans then
        (if control_group cluster_type vms ≠ [] then
          ((operate_vms execOk (get_vm_names (control_group cluster_type vms)) "stop").1,
           (operate_vms execOk (get_vm_names (filter_vms_by_name vms "worker")) "stop").2 ++
           [Event.confirm ans] ++
           (operate_vms execOk (get_vm_names (control_group cluster_type vms)) "stop").2)
         else
          (true,
           (operate_vms execOk (get_vm_names (filter_vms_by_name vms "worker")) "stop").2 ++
           [Event.confirm ans]))
       else
        (true,
         (operate_vms execOk (get_vm_names (filter_vms_by_name vms "worker")) "stop").2 ++
         [Event.confirm ans]))
     else
      (false, (operate_vms execOk (get_vm_names (filter_vms_by_name vms "worker")) "stop").2))
  else
    (if control_group cluster_type vms ≠ [] then
      ((operate_vms execOk (get_vm_names (control_group cluster_type vms)) "stop").1,
       (operate_vms execOk (get_vm_names (control_group cluster_type vms)) "stop").2)
     else (true, []))

/-- Projection of a trace to its backend batch calls, in order. -/
def batches : List Event → List (String × List String)
  | [] => []
  | Event.batch op ns :: rest => (op, ns) :: batches rest
  | Event.confirm _ :: rest => batches rest

theorem filter_ne_nil {vms : List Vm} {kw : String}
    (h : filter_vms_by_name vms kw ≠ []) : vms ≠ [] := by
  intro he
  subst he
  exact h rfl

theorem get_vm_names_ne {l : List Vm} (h : l ≠ []) : get_vm_names l ≠ [] := by
  cases l with
  | nil => exact absurd rfl h
  | cons x xs => simp [get_vm_names]

theorem operate_vms_run (execOk : String → List String → Bool)
    {ns : List String} (op : String) (h : ns ≠ [])
    (hop : operation_supported op = true) :
    operate_vms execOk ns op = (execOk op ns, [Event.batch op ns]) := by
  unfold operate_vms
  rw [if_neg h, if_pos hop]

theorem control_group_ne_nil {ct : String} {vms : List Vm}
    (h : control_group ct vms ≠ []) : vms ≠ [] := by
  unfold control_group at h
  split at h <;> exact filter_ne_nil h

/-- C2: whenever the backend VM list yields a nonempty controller (`main`)
group and a nonempty worker group, `start` issues the controller batch
first (the worker batch, when reached, comes second), while `stop` and
`suspend` issue the worker batch first (the controller batch, when reached,
comes second). -/
theorem lifecycle_role_order (execOk : String → List String → Bool) (ans : Bool)
    (vms : List Vm)
    (hm : filter_vms_by_name vms "main" ≠ [])
    (hw : filter_vms_by_name vms "worker" ≠ []) :
    (batches (start_nodes execOk ans vms) =
        [("start", get_vm_names (filter_vms_by_name vms "main"))] ∨
     batches (start_nodes execOk ans vms) =
        [("start", get_vm_names (filter_vms_by_name vms "main")),
         ("start", get_vm_names (filter_vms_by_name vms "worker"))]) ∧
    (batches (stop_nodes execOk ans vms) =
        [("stop", get_vm_names (filter_vms_by_name vms "worker"))] ∨
     batches (stop_nodes execOk ans vms) =
        [("stop", get_vm_names (filter_vms_by_name vms "worker")),
         ("stop", get_vm_names (filter_vms_by_name vms "main"))]) ∧
    (batches (suspend_nodes execOk ans vms) =
        [("suspend", get_vm_names (filter_vms_by_name vms "worker"))] ∨
     batches (suspend_nodes execOk ans vms) =
        [("suspend", get_vm_names (filter_vms_by_name vms "worker")),
         ("suspend", get_vm_names (filter_vms_by_name vms "main"))]) := by
  have hv : ¬ (vms = []) := filter_ne_nil hm
  have hmn := get_vm_names_ne hm
  have hwn := get_vm_names_ne hw
  refine ⟨?_, ?_, ?_⟩
  · unfold start_nodes
    rw [if_neg hv, if_pos hm, operate_vms_run execOk "start" hmn rfl,
      operate_vms_run execOk "start" hwn rfl]
    by_cases hok : execOk "start" (get_vm_names (filter_vms_by_name vms "main")) = true
    · by_cases hans : ans = true
      · right
        simp [hok, hans, hw, batches]
      · left
        simp [hok, hans, batches]
    · left
      simp [hok, batches]
  · unfold stop_nodes
    rw [if_neg hv, if_pos hw, operate_vms_run execOk "stop" hwn rfl,
      operate_vms_run execOk "stop" hmn rfl]
    by_cases hok : execOk "stop" (get_vm_names (filter_vms_by_name vms "worker")) = true
    · by_cases hans : ans = true
      · right
        simp [hok, hans, hm, batches]
      · left
        simp [hok, hans, batches]
    · left
      simp [hok, batches]
  · unfold suspend_nodes
    rw [if_neg hv, if_pos hw, operate_vms_run execOk "suspend" hwn rfl,
      operate_vms_run execOk "suspend" hmn rfl]
    by_cases hok : execOk "suspend" (get_vm_names (filter_vms_by_name vms "worker")) = true
    · by_cases hans : ans = true
      · right
        simp [hok, hans, hm, batches]
      · left
        simp [hok, hans, batches]
    · left
      simp [hok, batches]

/-- Concrete VM list used by lifecycle witnesses: one controller-group node
and two worker-group nodes. -/
def wVms : List Vm := [⟨"main-1"⟩, ⟨"worker-1"⟩, ⟨"worker-2"⟩]

/-- Smaller concrete VM list: one controller-group and one worker-group
node. -/
def wVms2 : List Vm := [⟨"main-1"⟩, ⟨"worker-1"⟩]

/-- Backend oracle that reports success for every batch. -/
def allOk : String → List String → Bool := fun _ _ => true

/-- Backend oracle that reports failure for every batch. -/
def noOk : String → List String → Bool := fun _ _ => false

/-- Witness for C2: both groups nonempty on a concrete VM list, and the
ordering conclusion holds there. -/
theorem lifecycle_role_order_witness :
    (filter_vms_by_name wVms "main" ≠ [] ∧
     filter_vms_by_name wVms "worker" ≠ []) ∧
    ((batches (start_nodes allOk true wVms) =
        [("start", get_vm_names (filter_vms_by_name wVms "main"))] ∨
      batches (start_nodes allOk true wVms) =
        [("start", get_vm_names (filter_vms_by_name wVms "main")),
         ("start", get_vm_names (filter_vms_by_name wVms "worker"))]) ∧
     (batches (stop_nodes allOk true wVms) =
        [("stop", get_vm_names (filter_vms_by_name wVms "worker"))] ∨
      batches (stop_nodes allOk true wVms) =
        [("stop", get_vm_names (filter_vms_by_name wVms "worker")),
         ("stop", get_vm_names (filter_vms_by_name wVms "main"))]) ∧
     (batches (suspend_nodes allOk true wVms) =
        [("suspend", get_vm_names (filter_vms_by_name wVms "worker"))] ∨
      batches (suspend_nodes allOk true wVms) =
        [("suspend", get_vm_names (filter_vms_by_name wVms "worker")),
         ("suspend", get_vm_names (filter_vms_by_name wVms "main"))])) :=
  ⟨⟨by decide, by decide⟩,
   lifecycle_role_order allOk true wVms (by decide) (by decide)⟩

/-- C3: in a `start` run whose controller batch succeeds, declining the
confirmation ends the run with zero backend calls for the worker group, the
controller batch still in the trace (its effect stands), and — in
`start_cluster`, which reports a result — the run counted as a success
(`True`), not a failure. -/
theorem start_decline_is_success (execOk : String → List String → Bool)
    (vms : List Vm)
    (hm : filter_vms_by_name vms "main" ≠ [])
    (hok : execOk "start" (get_vm_names (filter_vms_by_name vms "main")) = true) :
    start_cluster execOk false "k3s" vms =
      (true, [Event.batch "start" (get_vm_names (filter_vms_by_name vms "main")),
              Event.confirm false]) ∧
    start_nodes execOk false vms =
      [Event.batch "start" (get_vm_names (filter_vms_by_name vms "main")),
       Event.confirm false] := by
  have hv : ¬ (vms = []) := filter_ne_nil hm
  have hmn := get_vm_names_ne hm
  have hcg : control_group "k3s" vms = filter_vms_by_name vms "main" := by
    unfold control_group
    rw [if_pos rfl]
  constructor
  · unfold start_cluster
    rw [hcg, if_neg hv, if_pos hm, operate_vms_run execOk "start" hmn rfl]
    simp [hok]
  · unfold start_nodes
    rw [if_neg hv, if_pos hm, operate_vms_run execOk "start" hmn rfl]
    simp [hok]

/-- Witness for C3: concrete run with a successful controller batch and a
declined confirmation. -/
theorem start_decline_is_success_witness :
    (filter_vms_by_name wVms2 "main" ≠ [] ∧
     allOk "start" (get_vm_names (filter_vms_by_name wVms2 "main")) = true) ∧
    (start_cluster allOk false "k3s" wVms2 =
      (true, [Event.batch "start" (get_vm_names (filter_vms_by_name wVms2 "main")),
              Event.confirm false]) ∧
     start_nodes allOk false wVms2 =
      [Event.batch "start" (get_vm_names (filter_vms_by_name wVms2 "main")),
       Event.confirm false]) :=
  ⟨⟨by decide, rfl⟩, start_decline_is_success allOk wVms2 (by decide) rfl⟩

/-- C4: for every lifecycle operation, backend failure on the first group's
batch halts the run at once: the trace holds only that first batch (zero
backend calls for the second group) and the `cluster_operator` variants
report the whole run as a failure (`False`). -/
theorem first_group_failure_halts (execOk : String → List String → Bool)
    (ans : Bool) (cluster_type : String) (vms : List Vm) :
    (control_group cluster_type vms ≠ [] →
      execOk "start" (get_vm_names (control_group cluster_type vms)) = false →
      start_cluster execOk ans cluster_type vms =
        (false, [Event.batch "start" (get_vm_names (control_group cluster_type vms))])) ∧
    (filter_vms_by_name vms "worker" ≠ [] →
      execOk "suspend" (get_vm_names (filter_vms_by_name vms "worker")) = false →
      suspend_cluster execOk ans cluster_type vms =
        (false, [Event.batch "suspend" (get_vm_names (filter_vms_by_name vms "worker"))])) ∧
    (filter_vms_by_name vms "worker" ≠ [] →
      execOk "stop" (get_vm_names (filter_vms_by_name vms "worker")) = false →
      stop_cluster execOk ans cluster_type vms =
        (false, [Event.batch "stop" (get_vm_names (filter_vms_by_name vms "worker"))])) ∧
    (filter_vms_by_name vms "main" ≠ [] →
      execOk "start" (get_vm_names (filter_vms_by_name vms "main")) = false →
      start_nodes execOk ans vms =
        [Event.batch "start" (get_vm_names (filter_vms_by_name vms "main"))]) ∧
    (filter_vms_by_name vms "worker" ≠ [] →
      execOk "suspend" (get_vm_names (filter_vms_by_name vms "worker")) = false →
      suspend_nodes execOk ans vms =
        [Event.batch "suspend" (get_vm_names (filter_vms_by_name vms "worker"))]) ∧
    (filter_vms_by_name vms "worker" ≠ [] →
      execOk "stop" (get_vm_names (filter_vms_by_name vms "worker")) = false →
      stop_nodes execOk ans vms =
        [Event.batch "stop" (get_vm_names (filter_vms_by_name vms "worker"))]) := by
  refine ⟨?_, ?_, ?_, ?_, ?_, ?_⟩
  · intro hc hf
    have hv : ¬ (vms = []) := control_group_ne_nil hc
    have hcn := get_vm_names_ne hc
    unfold start_cluster
    rw [if_neg hv, if_pos hc, operate_vms_run execOk "start" hcn rfl]
    simp [hf]
  · intro hwg hf
    have hv : ¬ (vms = []) := filter_ne_nil hwg
    have hwn := get_vm_names_ne hwg
    unfold suspend_cluster
    rw [if_neg hv, if_pos hwg, operate_vms_run execOk "suspend" hwn rfl]
    simp [hf]
  · intro hwg hf
    have hv : ¬ (vms = []) := filter_ne_nil hwg
    have hwn := get_vm_names_ne hwg
    unfold stop_cluster
    rw [if_neg hv, if_pos hwg, operate_vms_run execOk "stop" hwn rfl]
    simp [hf]
  · intro hmg hf
    have hv : ¬ (vms = []) := filter_ne_nil hmg
    have hmn := get_vm_names_ne hmg
    unfold start_nodes
    rw [if_neg hv, if_pos hmg, operate_vms_run execOk "start" hmn rfl]
    simp [hf]
  · intro hwg hf
    have hv : ¬ (vms = []) := filter_ne_nil hwg
    have hwn := get_vm_names_ne hwg
    unfold suspend_nodes
    rw [if_neg hv, if_pos hwg, operate_vms_run execOk "suspend" hwn rfl]
    simp [hf]
  · intro hwg hf
    have hv : ¬ (vms = []) := filter_ne_nil hwg
    have hwn := get_vm_names_ne hwg
    unfold stop_nodes
    rw [if_neg hv, if_pos hwg, operate_vms_run execOk "stop" hwn rfl]
    simp [hf]

/-- Witness for C4: with a backend that fails every batch, each of the six
lifecycle entry points halts after the first group's batch on a concrete VM
list. -/
theorem first_group_failure_halts_witness :
    start_cluster noOk true "k3s" wVms2 =
      (false, [Event.batch "start" (get_vm_names (control_group "k3s" wVms2))]) ∧
    suspend_cluster noOk true "k3s" wVms2 =
      (false, [Event.batch "suspend" (get_vm_names (filter_vms_by_name wVms2 "worker"))]) ∧
    stop_cluster noOk true "k3s" wVms2 =
      (false, [Event.batch "stop" (get_vm_names (filter_vms_by_name wVms2 "worker"))]) ∧
    start_nodes noOk true wVms2 =
      [Event.batch "start" (get_vm_names (filter_vms_by_name wVms2 "main"))] ∧
    suspend_nodes noOk true wVms2 =
      [Event.batch "suspend" (get_vm_names (filter_vms_by_name wVms2 "worker"))] ∧
    stop_nodes noOk true wVms2 =
      [Event.batch "stop" (get_vm_names (filter_vms_by_name wVms2 "worker"))] :=
  ⟨(first_group_failure_halts noOk true "k3s" wVms2).1 (by decide) rfl,
   (first_group_failure_halts noOk true "k3s" wVms2).2.1 (by decide) rfl,
   (first_group_failure_halts noOk true "k3s" wVms2).2.2.1 (by decide) rfl,
   (first_group_failure_halts noOk true "k3s" wVms2).2.2.2.1 (by decide) rfl,
   (first_group_failure_halts noOk true "k3s" wVms2).2.2.2.2.1 (by decide) rfl,
   (first_group_failure_halts noOk true "k3s" wVms2).2.2.2.2.2 (by decide) rfl⟩

/-- Counterexample to C7 as stated: the node named `node-1` (its name
contains neither `main` nor `worker`) belongs to neither role group, so the
role grouping used by the lifecycle operations does not partition every
backend-reported VM list. -/
theorem role_partition_cex :
    ¬ (∀ (vms : List Vm), ∀ vm ∈ vms,
        (vm ∈ filter_vms_by_name vms "main" ∨
         vm ∈ filter_vms_by_name vms "worker") ∧
        ¬ (vm ∈ filter_vms_by_name vms "main" ∧
           vm ∈ filter_vms_by_name vms "worker")) := by
  intro hcl
  have h := (hcl [⟨"node-1"⟩] ⟨"node-1"⟩ (by decide)).1
  have hm : filter_vms_by_name [(⟨"node-1"⟩ : Vm)] "main" = [] := by decide
  have hw : filter_vms_by_name [(⟨"node-1"⟩ : Vm)] "worker" = [] := by decide
  rw [hm, hw] at h
  rcases h with h | h <;> exact absurd h (List.not_mem_nil _)

/-- C7 amended: membership in the controller group is exactly a
case-insensitive `main` substring match on the node name, membership in the
worker group exactly a `worker` substring match; whenever every node's name
matches exactly one of the two keywords, the two groups are disjoint and
their union is the full node set (the general VM list need not be
partitioned: a name matching neither keyword is in no group, one matching
both is in both groups). -/
theorem role_grouping_characterization (vms : List Vm) :
    (∀ vm, vm ∈ filter_vms_by_name vms "main" ↔
        vm ∈ vms ∧ charsContain (pyLower "main") (pyLower vm.name) = true) ∧
    (∀ vm, vm ∈ filter_vms_by_name vms "worker" ↔
        vm ∈ vms ∧ charsContain (pyLower "worker") (pyLower vm.name) = true) ∧
    ((∀ vm ∈ vms,
        charsContain (pyLower "main") (pyLower vm.name) ≠
          charsContain (pyLower "worker") (pyLower vm.name)) →
      (∀ vm ∈ vms,
          vm ∈ filter_vms_by_name vms "main" ∨
          vm ∈ filter_vms_by_name vms "worker") ∧
      (∀ vm, ¬ (vm ∈ filter_vms_by_name vms "main" ∧
                vm ∈ filter_vms_by_name vms "worker"))) := by
  refine ⟨?_, ?_, ?_⟩
  · intro vm
    simp [filter_vms_by_name, List.mem_filter]
  · intro vm
    simp [filter_vms_by_name, List.mem_filter]
  · intro hx
    constructor
    · intro vm hvm
      have hx1 := hx vm hvm
      cases hm : charsContain (pyLower "main") (pyLower vm.name) with
      | true =>
          left
          simp [filter_vms_by_name, List.mem_filter, hvm, hm]
      | false =>
          cases hw : charsContain (pyLower "worker") (pyLower vm.name) with
          | true =>
              right
              simp [filter_vms_by_name, List.mem_filter, hvm, hw]
          | false =>
              rw [hm, hw] at hx1
              exact absurd rfl hx1
    · intro vm hboth
      obtain ⟨h1, h2⟩ := hboth
      simp only [filter_vms_by_name, List.mem_filter] at h1 h2
      exact absurd (h1.2.trans h2.2.symm) (hx vm h1.1)

/-- Witness for C7's amended partition statement: on a VM list whose names
each match exactly one keyword, the groups cover the list and are
disjoint. -/
theorem role_grouping_characterization_witness :
    (∀ vm ∈ wVms2,
        vm ∈ filter_vms_by_name wVms2 "main" ∨
        vm ∈ filter_vms_by_name wVms2 "worker") ∧
    (∀ vm, ¬ (vm ∈ filter_vms_by_name wVms2 "main" ∧
              vm ∈ filter_vms_by_name wVms2 "worker")) :=
  (role_grouping_characterization wVms2).2.2 (by decide)

/-- Counterexample to C8 as stated: in a `start` run over the single node
`main-1` the worker group is empty, yet the run still interposes the
confirmation gate (the prompt guarding the worker phase), so an empty
second group does not suppress the gate for its phase. -/
theorem empty_second_group_gate_cex :
    ¬ (∀ (execOk : String → List String → Bool) (ans : Bool) (vms : List Vm),
        filter_vms_by_name vms "worker" = [] →
        ∀ b, Event.confirm b ∉ start_nodes execOk ans vms) := by
  intro hcl
  exact hcl allOk true [⟨"main-1"⟩] (by decide) true (by decide)

/-- C8 amended: an empty role group receives no backend call and the run
proceeds past it; when the empty group is the first group of the operation
no confirmation gate is interposed at all, but when it is the second group
and the first group's batch succeeded, the confirmation gate after the
first group is still interposed even though nothing remains to do. -/
theorem empty_group_auto_success (execOk : String → List String → Bool)
    (ans : Bool) (vms : List Vm) :
    (filter_vms_by_name vms "main" = [] →
      start_nodes execOk ans vms =
        (if filter_vms_by_name vms "worker" ≠ [] then
          [Event.batch "start" (get_vm_names (filter_vms_by_name vms "worker"))]
         else [])) ∧
    (filter_vms_by_name vms "worker" = [] →
      filter_vms_by_name vms "main" ≠ [] →
      start_nodes execOk ans vms =
        [Event.batch "start" (get_vm_names (filter_vms_by_name vms "main"))] ++
        (if execOk "start" (get_vm_names (filter_vms_by_name vms "main")) then
          [Event.confirm ans]
         else [])) ∧
    (filter_vms_by_name vms "worker" = [] →
      suspend_nodes execOk ans vms =
        (if filter_vms_by_name vms "main" ≠ [] then
          [Event.batch "suspend" (get_vm_names (filter_vms_by_name vms "main"))]
         else [])) ∧
    (filter_vms_by_name vms "main" = [] →
      filter_vms_by_name vms "worker" ≠ [] →
      suspend_nodes execOk ans vms =
        [Event.batch "suspend" (get_vm_names (filter_vms_by_name vms "worker"))] ++
        (if execOk "suspend" (get_vm_names (filter_vms_by_name vms "worker")) then
          [Event.confirm ans]
         else [])) ∧
    (filter_vms_by_name vms "worker" = [] →
      stop_nodes execOk ans vms =
        (if filter_vms_by_name vms "main" ≠ [] then
          [Event.batch "stop" (get_vm_names (filter_vms_by_name vms "main"))]
         else [])) ∧
    (filter_vms_by_name vms "main" = [] →
      filter_vms_by_name vms "worker" ≠ [] →
      stop_nodes execOk ans vms =
        [Event.batch "stop" (get_vm_names (filter_vms_by_name vms "worker"))] ++
        (if execOk "stop" (get_vm_names (filter_vms_by_name vms "worker")) then
          [Event.confirm ans]
         else [])) := by
  refine ⟨?_, ?_, ?_, ?_, ?_, ?_⟩
  · intro hm0
    by_cases hv : vms = []
    · subst hv
      simp [start_nodes, filter_vms_by_name]
    · unfold start_nodes
      rw [if_neg hv, if_neg (fun hcontra => hcontra hm0)]
      by_cases hw0 : filter_vms_by_name vms "worker" ≠ []
      · rw [if_pos hw0, if_pos hw0,
          operate_vms_run execOk "start" (get_vm_names_ne hw0) rfl]
      · rw [if_neg hw0, if_neg hw0]
  · intro hw0 hm
    have hv : ¬ (vms = []) := filter_ne_nil hm
    have hmn := get_vm_names_ne hm
    unfold start_nodes
    rw [if_neg hv, if_pos hm, operate_vms_run execOk "start" hmn rfl]
    by_cases hok : execOk "start" (get_vm_names (filter_vms_by_name vms "main")) = true
    · simp [hok, hw0]
    · simp [hok]
  · intro hw0
    by_cases hv : vms = []
    · subst hv
      simp [suspend_nodes, filter_vms_by_name]
    · unfold suspend_nodes
      rw [if_neg hv, if_neg (fun hcontra => hcontra hw0)]
      by_cases hm0 : filter_vms_by_name vms "main" ≠ []
      · rw [if_pos hm0, if_pos hm0,
          operate_vms_run execOk "suspend" (get_vm_names_ne hm0) rfl]
      · rw [if_neg hm0, if_neg hm0]
  · intro hm0 hw
    have hv : ¬ (vms = []) := filter_ne_nil hw
    have hwn := get_vm_names_ne hw
    unfold suspend_nodes
    rw [if_neg hv, if_pos hw, operate_vms_run execOk "suspend" hwn rfl]
    by_cases hok : execOk "suspend" (get_vm_names (filter_vms_by_name vms "worker")) = true
    · simp [hok, hm0]
    · simp [hok]
  · intro hw0
    by_cases hv : vms = []
    · subst hv
      simp [stop_nodes, filter_vms_by_name]
    · unfold stop_nodes
      rw [if_neg hv, if_neg (fun hcontra => hcontra hw0)]
      by_cases hm0 : filter_vms_by_name vms "main" ≠ []
      · rw [if_pos hm0, if_pos hm0,
          operate_vms_run execOk "stop" (get_vm_names_ne hm0) rfl]
      · rw [if_neg hm0, if_neg hm0]
  · intro hm0 hw
    have hv : ¬ (vms = []) := filter_ne_nil hw
    have hwn := get_vm_names_ne hw
    unfold stop_nodes
    rw [if_neg hv, if_pos hw, operate_vms_run execOk "stop" hwn rfl]
    by_cases hok : execOk "stop" (get_vm_names (filter_vms_by_name vms "worker")) = true
    · simp [hok, hm0]
    · simp [hok]

/-- Witness for C8's amended statement: runs over a worker-only and a
controller-only VM list. -/
theorem empty_group_auto_success_witness :
    (filter_vms_by_name [(⟨"worker-1"⟩ : Vm)] "main" = [] ∧
     start_nodes allOk true [⟨"worker-1"⟩] = [Event.batch "start" ["worker-1"]]) ∧
    (filter_vms_by_name [(⟨"main-1"⟩ : Vm)] "worker" = [] ∧
     start_nodes allOk true [⟨"main-1"⟩] =
       [Event.batch "start" ["main-1"], Event.confirm true]) :=
  ⟨⟨by decide, (empty_group_auto_success allOk true [⟨"worker-1"⟩]).1 (by decide)⟩,
   ⟨by decide,
    (empty_group_auto_success allOk true [⟨"main-1"⟩]).2.1 (by decide) (by decide)⟩⟩

/-! ## Cluster resource aggregation (`model/cluster.py`)

`_calculate_resources` walks `self.nodes`, adds up `cpus` directly and
parses `memory`/`disk` strings by suffix sniffing: a trailing `G` adds
`int(s[:-1])` gibibytes, a trailing `M` adds `int(s[:-1]) / 1024`, and any
other suffix adds nothing at all.  Python's `int()` raises `ValueError` on a
non-integer magnitude; an uncaught exception is modelled by `Option.none`.
The source renders the totals back into `f"{n}G"` strings; the embedding
keeps the numeric magnitudes. -/

/-- Digit-string conversion underlying Python `int()`: `none` unless the
characters are a nonempty run of decimal digits. -/
def digitsToNat (cs : List Char) : Option Nat :=
  if cs = [] then none
  else if cs.all Char.isDigit then
    some (cs.foldl (fun a c => a * 10 + (c.toNat - 48)) 0)
  else none

/-- Python `int(str)` on quantity magnitudes: an optional sign followed by a
nonempty digit run; every other shape (such as `1.5` or the empty string)
raises `ValueError`, modelled as `none`. -/
def pyInt (cs : List Char) : Option Int :=
  match cs with
  | '+' :: rest => (digitsToNat rest).map (fun n => (n : Int))
  | '-' :: rest => (digitsToNat rest).map (fun n => -(n : Int))
  | _ => (digitsToNat cs).map (fun n => (n : Int))

/-- Python `s.endswith(c)` for a single-character suffix. -/
def strEndsWith (s : String) (c : Char) : Bool :=
  match s.toList.getLast? with
  | some c2 => c2 = c
  | none => false

/-- The memory/disk parsing branch of `_calculate_resources`: value in
gibibytes contributed by one quantity string, `none` when `int()` raises. -/
def quantityGB (s : String) : Option ℚ :=
  if strEndsWith s 'G' then (pyInt s.toList.dropLast).map (fun n => (n : ℚ))
  else if strEndsWith s 'M' then
    (pyInt s.toList.dropLast).map (fun n => (n : ℚ) / 1024)
  else some 0

/-- The per-node resource dict as populated by `Node.__init__`
(`model/node.py`): `cpus`, `memory`, `disk`. -/
structure NodeRes where
  cpus : Int
  memory : String
  disk : String
deriving DecidableEq, Repr

/-- The numeric content of the `ClusterResources` dataclass. -/
structure ClusterResources where
  total_cpus : Int
  total_memory_gb : ℚ
  total_disk_gb : ℚ
deriving DecidableEq, Repr

/-- One node's contribution inside the loop of `_calculate_resources`;
`none` when one of its quantities makes `int()` raise. -/
def nodeContrib (n : NodeRes) : Option ClusterResources :=
  match quantityGB n.memory, quantityGB n.disk with
  | some mg, some dg => some ⟨n.cpus, mg, dg⟩
  | _, _ => none

/-- Componentwise accumulation of totals. -/
def addResources (a b : ClusterResources) : ClusterResources :=
  ⟨a.total_cpus + b.total_cpus, a.total_memory_gb + b.total_memory_gb,
   a.total_disk_gb + b.total_disk_gb⟩

/-- The accumulation loop of `_calculate_resources`. -/
def calcResourcesAux (acc : ClusterResources) :
    List NodeRes → Option ClusterResources
  | [] => some acc
  | n :: rest =>
      match nodeContrib n with
      | some c => calcResourcesAux (addResources acc c) rest
      | none => none

/-- `_calculate_resources` from `model/cluster.py`, as a function of the
current node set (the method reads `self.nodes.values()` and nothing
else). -/
def calculate_resources (nodes : List NodeRes) : Option ClusterResources :=
  calcResourcesAux ⟨0, 0, 0⟩ nodes

/-- The mutable state of a `Cluster` that `_calculate_resources` touches:
the node set and the stored `resources` field. -/
structure ClusterState where
  nodes : List NodeRes
  resources : ClusterResources
deriving DecidableEq, Repr

/-- The `_calculate_resources` method as a state transformer: it reads
`self.nodes`, overwrites `self.resources` with freshly computed totals and
never reads the previously stored totals; `none` models an uncaught
`ValueError` escaping the method. -/
def calculate_resources_method (s : ClusterState) : Option ClusterState :=
  (calculate_resources s.nodes).map (fun r => { s with resources := r })

theorem calcResourcesAux_append (ns : List NodeRes) (n : NodeRes) :
    ∀ acc, calcResourcesAux acc (ns ++ [n]) =
      (calcResourcesAux acc ns).bind
        (fun t => (nodeContrib n).map (fun c => addResources t c)) := by
  induction ns with
  | nil =>
      intro acc
      rcases h : nodeContrib n with _ | c <;>
        simp [calcResourcesAux, h]
  | cons m rest ih =>
      intro acc
      rcases h : nodeContrib m with _ | c <;>
        simp [calcResourcesAux, h, ih]

/-- C5 (the code's actual behavior at the failing input): a memory quantity
with the unrecognized suffix `X` is silently skipped by
`_calculate_resources` — aggregation succeeds and the value contributes
zero, instead of failing with an explicit error as the specification
requires. -/
theorem unknown_suffix_silently_zero :
    calculate_resources [⟨2, "4X", "0G"⟩] = some ⟨2, 0, 0⟩ := by
  simp [calculate_resources, calcResourcesAux, nodeContrib, quantityGB,
    strEndsWith, pyInt, digitsToNat, addResources]

/-- C6: a second aggregation call after adding a node recomputes from the
current node set — its result is the first call's totals plus the new
node's parsed quantities, and the stored `resources` field has no influence
on what any call returns (no cached or stale total). -/
theorem aggregate_recomputes (ns : List NodeRes) (n : NodeRes)
    (r₀ : ClusterResources) (s₁ : ClusterState)
    (h : calculate_resources_method ⟨ns, r₀⟩ = some s₁) :
    (calculate_resources_method ⟨s₁.nodes ++ [n], s₁.resources⟩ =
      (nodeContrib n).map
        (fun c => ⟨ns ++ [n], addResources s₁.resources c⟩)) ∧
    (∀ r : ClusterResources,
      calculate_resources_method ⟨s₁.nodes ++ [n], r⟩ =
        calculate_resources_method ⟨s₁.nodes ++ [n], s₁.resources⟩) := by
  unfold calculate_resources_method at h
  rcases hc : calculate_resources ns with _ | r₁
  · rw [hc] at h
    cases h
  · rw [hc, Option.map_some'] at h
    cases h
    constructor
    · unfold calculate_resources_method
      have hap := calcResourcesAux_append ns n ⟨0, 0, 0⟩
      rcases hn : nodeContrib n with _ | c
      · simp only [ClusterState.nodes, ClusterState.resources]
        rw [show calculate_resources (ns ++ [n]) = none by
          rw [calculate_resources, hap, hn]
          rcases hx : calcResourcesAux ⟨0, 0, 0⟩ ns with _ | t <;> rfl]
        rfl
      · simp only [ClusterState.nodes, ClusterState.resources]
        rw [show calculate_resources (ns ++ [n]) = some (addResources r₁ c) by
          rw [calculate_resources, hap, hn,
            show calcResourcesAux ⟨0, 0, 0⟩ ns = some r₁ from hc]
          rfl]
        rfl
    · intro r
      rfl

/-- Concrete node list for the C6 witness. -/
def wNodes : List NodeRes := [⟨2, "4G", "20G"⟩]

/-- Concrete added node for the C6 witness. -/
def wNode : NodeRes := ⟨1, "512M", "10G"⟩

/-- Witness for C6: aggregate once over one node, add a second node, and
the second aggregation reflects the added node's parsed quantities. -/
theorem aggregate_recomputes_witness :
    (calculate_resources_method ⟨wNodes, ⟨0, 0, 0⟩⟩ =
      some ⟨wNodes, ⟨2, 4, 20⟩⟩) ∧
    calculate_resources_method ⟨wNodes ++ [wNode], ⟨2, 4, 20⟩⟩ =
      (nodeContrib wNode).map
        (fun c => ⟨wNodes ++ [wNode], addResources ⟨2, 4, 20⟩ c⟩) :=
  ⟨by
     simp [calculate_resources_method, calculate_resources, calcResourcesAux,
       nodeContrib, quantityGB, strEndsWith, pyInt, digitsToNat, addResources,
       wNodes],
   (aggregate_recomputes wNodes wNode ⟨0, 0, 0⟩ ⟨wNodes, ⟨2, 4, 20⟩⟩ (by
     simp [calculate_resources_method, calculate_resources, calcResourcesAux,
       nodeContrib, quantityGB, strEndsWith, pyInt, digitsToNat, addResources,
       wNodes])).1⟩

/-- A quantity string with a recognized suffix whose magnitude makes
Python's `int()` raise (e.g. a fractional magnitude such as `1.5G`). -/
def badQuantityB (s : String) : Bool :=
  (strEndsWith s 'G' || strEndsWith s 'M') && (pyInt s.toList.dropLast).isNone

theorem quantityGB_eq_none {s : String} (h : badQuantityB s = true) :
    quantityGB s = none := by
  unfold badQuantityB at h
  rw [Bool.and_eq_true, Bool.or_eq_true] at h
  obtain ⟨hsfx, hnone⟩ := h
  have hint : pyInt s.toList.dropLast = none :=
    Option.isNone_iff_eq_none.mp hnone
  unfold quantityGB
  rcases hsfx with hg | hm
  · rw [if_pos hg, hint]
    rfl
  · by_cases hg : strEndsWith s 'G' = true
    · rw [if_pos hg, hint]
      rfl
    · rw [if_neg hg, if_pos hm, hint]
      rfl

theorem nodeContrib_eq_none {n : NodeRes}
    (h : badQuantityB n.memory = true ∨ badQuantityB n.disk = true) :
    nodeContrib n = none := by
  unfold nodeContrib
  rcases h with h | h
  · rw [quantityGB_eq_none h]
  · rw [quantityGB_eq_none h]
    rcases quantityGB n.memory with _ | mg <;> rfl

theorem calc_none_of_mem {ns : List NodeRes} {n : NodeRes} (hmem : n ∈ ns)
    (hc : nodeContrib n = none) : ∀ acc, calcResourcesAux acc ns = none := by
  induction ns with
  | nil => cases hmem
  | cons m rest ih =>
      intro acc
      rcases List.mem_cons.mp hmem with he | ht
      · subst he
        simp [calcResourcesAux, hc]
      · rcases hcm : nodeContrib m with _ | c
        · simp [calcResourcesAux, hcm]
        · simp [calcResourcesAux, hcm, ih ht]

/-- C10: any node whose memory or disk quantity has a recognized suffix
(`G` or `M`) but a magnitude on which Python's strict `int()` raises (such
as the fractional `1.5G`) makes the whole aggregation — and hence cluster
construction, which calls it from `__init__` — fail with an uncaught
exception, rather than aggregate the value or report a structured per-node
error. -/
theorem strict_magnitude_raises (ns : List NodeRes) (n : NodeRes)
    (hmem : n ∈ ns)
    (hbad : badQuantityB n.memory = true ∨ badQuantityB n.disk = true) :
    calculate_resources ns = none :=
  calc_none_of_mem hmem (nodeContrib_eq_none hbad) ⟨0, 0, 0⟩

/-- Witness for C10: a node with memory `1.5G` (recognized suffix,
fractional magnitude) aborts aggregation with the modelled exception. -/
theorem strict_magnitude_raises_witness :
    ((⟨2, "1.5G", "20G"⟩ : NodeRes) ∈ [(⟨2, "1.5G", "20G"⟩ : NodeRes)] ∧
     badQuantityB (NodeRes.memory ⟨2, "1.5G", "20G"⟩) = true) ∧
    calculate_resources [(⟨2, "1.5G", "20G"⟩ : NodeRes)] = none :=
  ⟨⟨by decide, by decide⟩,
   strict_magnitude_raises [⟨2, "1.5G", "20G"⟩] ⟨2, "1.5G", "20G"⟩
     (by decide) (Or.inl (by decide))⟩

/-! ## Heap-level model of `deep_merge` (absence of input mutation)

Python dictionaries are mutable heap objects and `deep_merge` writes into
`result = base_dict.copy()`.  To state that neither input is mutated, dict
objects are modelled as cells of a heap addressed by allocation order;
`base_dict.copy()` allocates a fresh cell at the end of the heap and every
`result[key] = ...` writes only to that fresh cell. -/

/-- A value stored in a dict cell: an immutable primitive, an immutable
sequence (whose elements may reference dict cells; `deep_merge` never
touches list internals), or a reference to a dict cell. -/
inductive HVal where
  | prim : String → HVal
  | list : List HVal → HVal
  | ref : Nat → HVal

/-- The contents of one dict object: insertion-ordered key/value list. -/
abbrev Cell := List (String × HVal)

/-- The store of dict objects, addressed by allocation order. -/
abbrev Heap := List Cell

/-- Read a cell; a dangling address reads as the empty dict (never produced
by `deepMergeH` on valid inputs). -/
def heapGet (h : Heap) (a : Nat) : Cell :=
  (h[a]?).getD []

/-- Overwrite the cell at an address. -/
def heapSet (h : Heap) (a : Nat) (c : Cell) : Heap :=
  h.set a c

/-- Python `k in d` / `d[k]` on one cell. -/
def cellGet (c : Cell) (k : String) : Option HVal :=
  match c.find? (fun p => p.1 = k) with
  | some p => some p.2
  | none => none

/-- Python `d[k] = v` on one cell: existing key keeps its position, new key
is appended. -/
def cellSet (c : Cell) (k : String) (v : HVal) : Cell :=
  if c.any (fun p => p.1 = k) then
    c.map (fun p => if p.1 = k then (k, v) else p)
  else c ++ [(k, v)]

/-- One iteration of the loop of `deep_merge` at heap level: if the result
cell already maps `k` to a dict and the incoming value is a dict, merge them
recursively via `dm` and store a reference to the fresh merged cell;
otherwise store the incoming value; either way the only write is to the
result cell `r`. -/
def mergeStepH (dm : Heap → Nat → Nat → Option (Heap × Nat)) (r : Nat)
    (k : String) (v : HVal) (h : Heap) : Option Heap :=
  match cellGet (heapGet h r) k, v with
  | some (HVal.ref sa), HVal.ref sb =>
      match dm h sa sb with
      | some (h₂, r₂) =>
          some (heapSet h₂ r (cellSet (heapGet h₂ r) k (HVal.ref r₂)))
      | none => none
  | _, _ => some (heapSet h r (cellSet (heapGet h r) k v))

/-- The loop over `override_dict.items()` of `deep_merge` at heap level:
`r` is the address of the result cell (`base_dict.copy()`), `dm` the
recursive merge used when both the stored and the incoming value are
dicts. -/
def mergeLoopH (dm : Heap → Nat → Nat → Option (Heap × Nat)) (r : Nat) :
    Heap → List (String × HVal) → Option Heap
  | h, [] => some h
  | h, (k, v) :: rest =>
      match mergeStepH dm r k v h with
      | some h₃ => mergeLoopH dm r h₃ rest
      | none => none

/-- `deep_merge` from `src/utils.py` at heap level: allocate
`result = base_dict.copy()` at the end of the heap, run the override loop,
return the new heap and the result address.  `fuel` bounds the recursion
depth (Python would hit `RecursionError` instead); exhaustion yields
`none`. -/
def deepMergeH : Nat → Heap → Nat → Nat → Option (Heap × Nat)
  | 0 => fun _ _ _ => none
  | fuel + 1 => fun h a b =>
      match mergeLoopH (deepMergeH fuel) h.length
          (h ++ [heapGet h a]) (heapGet h b) with
      | some h₂ => some (h₂, h.length)
      | none => none

mutual

/-- Every reference inside a value points below address `n`. -/
def refsBelow (n : Nat) : HVal → Bool
  | .prim _ => true
  | .ref a => decide (a < n)
  | .list xs => refsBelowList n xs

/-- `refsBelow` over a list of values. -/
def refsBelowList (n : Nat) : List HVal → Bool
  | [] => true
  | x :: xs => refsBelow n x && refsBelowList n xs

end

/-- Every reference inside a cell points below address `n`. -/
def cellRefsBelow (n : Nat) (c : Cell) : Bool :=
  c.all (fun p => refsBelow n p.2)

/-- A closed heap: every reference in every cell points into the heap. -/
def heapClosedB (h : Heap) : Bool :=
  h.all (fun c => cellRefsBelow h.length c)

/-- Pure configuration trees, the structural read-out of heap values. -/
inductive PTree where
  | prim : String → PTree
  | list : List PTree → PTree
  | dict : List (String × PTree) → PTree

mutual

/-- Structural read-out of a heap value, following references
(fuel-bounded). -/
def readVal : Nat → Heap → HVal → Option PTree
  | _, _, .prim s => some (.prim s)
  | fuel, h, .list xs => (readValList fuel h xs).map .list
  | 0, _, .ref _ => none
  | fuel + 1, h, .ref a =>
      match h[a]? with
      | some c => (readCellEntries fuel h c).map .dict
      | none => none
termination_by fuel _ v => (fuel, sizeOf v)

/-- `readVal` over a list of values. -/
def readValList : Nat → Heap → List HVal → Option (List PTree)
  | _, _, [] => some []
  | fuel, h, x :: xs =>
      match readVal fuel h x, readValList fuel h xs with
      | some t, some ts => some (t :: ts)
      | _, _ => none
termination_by fuel _ xs => (fuel, sizeOf xs)

/-- `readVal` over the entries of a cell. -/
def readCellEntries : Nat → Heap → List (String × HVal) → Option (List (String × PTree))
  | _, _, [] => some []
  | fuel, h, (k, v) :: rest =>
      match readVal fuel h v, readCellEntries fuel h rest with
      | some t, some ts => some ((k, t) :: ts)
      | _, _ => none
termination_by fuel _ c => (fuel, sizeOf c)

end

theorem mergeStepH_preserve
    (dm : Heap → Nat → Nat → Option (Heap × Nat))
    (hdm : ∀ g x y g' r', dm g x y = some (g', r') →
      g.length ≤ g'.length ∧ ∀ i, i < g.length → g'[i]? = g[i]?)
    (r n : Nat) (k : String) (v : HVal) (hnr : n ≤ r) (h h₃ : Heap)
    (hrh : r < h.length) (hs : mergeStepH dm r k v h = some h₃) :
    h.length ≤ h₃.length ∧ (∀ i, i < n → h₃[i]? = h[i]?) ∧ r < h₃.length := by
  have helse : h₃ = heapSet h r (cellSet (heapGet h r) k v) →
      h.length ≤ h₃.length ∧ (∀ i, i < n → h₃[i]? = h[i]?) ∧ r < h₃.length := by
    intro he
    subst he
    refine ⟨?_, ?_, ?_⟩
    · rw [heapSet, List.length_set]
    · intro i hi
      rw [heapSet, List.getElem?_set_ne (by omega : r ≠ i)]
    · rw [heapSet, List.length_set]
      exact hrh
  unfold mergeStepH at hs
  rcases hcv : cellGet (heapGet h r) k with _ | w
  · simp only [hcv] at hs
    exact helse (Option.some.inj hs).symm
  · rcases w with s | xs | sa
    · simp only [hcv] at hs
      exact helse (Option.some.inj hs).symm
    · simp only [hcv] at hs
      exact helse (Option.some.inj hs).symm
    · rcases v with s' | xs' | sb
      · simp only [hcv] at hs
        exact helse (Option.some.inj hs).symm
      · simp only [hcv] at hs
        exact helse (Option.some.inj hs).symm
      · simp only [hcv] at hs
        rcases hdm2 : dm h sa sb with _ | p
        · rw [hdm2] at hs
          cases hs
        · obtain ⟨h₂, r₂⟩ := p
          rw [hdm2] at hs
          obtain ⟨hlen₂, hag₂⟩ := hdm h sa sb h₂ r₂ hdm2
          cases hs
          refine ⟨?_, ?_, ?_⟩
          · rw [heapSet, List.length_set]
            exact hlen₂
          · intro i hi
            rw [heapSet, List.getElem?_set_ne (by omega : r ≠ i)]
            exact hag₂ i (by omega)
          · rw [heapSet, List.length_set]
            exact lt_of_lt_of_le hrh hlen₂

theorem mergeLoopH_preserve
    (dm : Heap → Nat → Nat → Option (Heap × Nat))
    (hdm : ∀ g x y g' r', dm g x y = some (g', r') →
      g.length ≤ g'.length ∧ ∀ i, i < g.length → g'[i]? = g[i]?)
    (r n : Nat) (hnr : n ≤ r) :
    ∀ (items : List (String × HVal)) (h h' : Heap),
      r < h.length →
      mergeLoopH dm r h items = some h' →
      h.length ≤ h'.length ∧ ∀ i, i < n → h'[i]? = h[i]? := by
  intro items
  induction items with
  | nil =>
      intro h h' hrh hml
      rw [mergeLoopH] at hml
      cases hml
      exact ⟨le_refl _, fun i _ => rfl⟩
  | cons p rest ih =>
      intro h h' hrh hml
      obtain ⟨k, v⟩ := p
      rw [mergeLoopH] at hml
      rcases hstep : mergeStepH dm r k v h with _ | h₃
      · rw [hstep] at hml
        cases hml
      · rw [hstep] at hml
        obtain ⟨hl3, hag3, hrh3⟩ :=
          mergeStepH_preserve dm hdm r n k v hnr h h₃ hrh hstep
        obtain ⟨hl4, hag4⟩ := ih h₃ h' hrh3 hml
        exact ⟨le_trans hl3 hl4, fun i hi => (hag4 i hi).trans (hag3 i hi)⟩

theorem deepMergeH_preserve :
    ∀ (fuel : Nat) (h : Heap) (a b : Nat) (h' : Heap) (r : Nat),
      deepMergeH fuel h a b = some (h', r) →
      h.length ≤ h'.length ∧ (∀ i, i < h.length → h'[i]? = h[i]?) ∧
        h.length ≤ r := by
  intro fuel
  induction fuel with
  | zero =>
      intro h a b h' r hd
      cases hd
  | succ fuel ih =>
      intro h a b h' r hd
      simp only [deepMergeH] at hd
      rcases hml : mergeLoopH (deepMergeH fuel) (List.length h)
          (h ++ [heapGet h a]) (heapGet h b) with _ | h₂
      · rw [hml] at hd
        cases hd
      · rw [hml] at hd
        cases hd
        have hdm : ∀ g x y g' r', deepMergeH fuel g x y = some (g', r') →
            g.length ≤ g'.length ∧ ∀ i, i < g.length → g'[i]? = g[i]? :=
          fun g x y g' r' hg =>
            ⟨(ih g x y g' r' hg).1, (ih g x y g' r' hg).2.1⟩
        have hpre := mergeLoopH_preserve (deepMergeH fuel) hdm h.length h.length
          (le_refl _) (heapGet h b) (h ++ [heapGet h a]) h'
          (by simp) hml
        refine ⟨?_, ?_, le_refl _⟩
        · have hx := hpre.1
          simp only [List.length_append, List.length_cons, List.length_nil] at hx
          omega
        · intro i hi
          rw [hpre.2 i hi, List.getElem?_append, if_pos hi]

mutual

theorem readVal_agree (n : Nat) (h h' : Heap)
    (hagree : ∀ i, i < n → h'[i]? = h[i]?)
    (hclosed : ∀ i c, i < n → h[i]? = some c → cellRefsBelow n c = true)
    (fuel : Nat) (v : HVal) (hv : refsBelow n v = true) :
    readVal fuel h' v = readVal fuel h v := by
  match fuel, v with
  | fuel, .prim s => rw [readVal, readVal]
  | fuel, .list xs =>
      rw [readVal, readVal,
        readValList_agree n h h' hagree hclosed fuel xs
          (by simpa [refsBelow] using hv)]
  | 0, .ref a => rw [readVal, readVal]
  | fuel + 1, .ref a =>
      have ha : a < n := by simpa [refsBelow] using hv
      rw [readVal, readVal, hagree a ha]
      rcases hc : h[a]? with _ | c
      · rfl
      · simp only [readCellEntries_agree n h h' hagree hclosed fuel c
          (hclosed a c ha hc)]
termination_by (fuel, sizeOf v)

theorem readValList_agree (n : Nat) (h h' : Heap)
    (hagree : ∀ i, i < n → h'[i]? = h[i]?)
    (hclosed : ∀ i c, i < n → h[i]? = some c → cellRefsBelow n c = true)
    (fuel : Nat) (xs : List HVal) (hxs : refsBelowList n xs = true) :
    readValList fuel h' xs = readValList fuel h xs := by
  match xs with
  | [] => rw [readValList, readValList]
  | x :: rest =>
      rw [refsBelowList, Bool.and_eq_true] at hxs
      rw [readValList, readValList,
        readVal_agree n h h' hagree hclosed fuel x hxs.1,
        readValList_agree n h h' hagree hclosed fuel rest hxs.2]
termination_by (fuel, sizeOf xs)

theorem readCellEntries_agree (n : Nat) (h h' : Heap)
    (hagree : ∀ i, i < n → h'[i]? = h[i]?)
    (hclosed : ∀ i c, i < n → h[i]? = some c → cellRefsBelow n c = true)
    (fuel : Nat) (c : List (String × HVal)) (hc : cellRefsBelow n c = true) :
    readCellEntries fuel h' c = readCellEntries fuel h c := by
  match c with
  | [] => rw [readCellEntries, readCellEntries]
  | (k, v) :: rest =>
      rw [cellRefsBelow, List.all_cons, Bool.and_eq_true] at hc
      rw [readCellEntries, readCellEntries,
        readVal_agree n h h' hagree hclosed fuel v hc.1,
        readCellEntries_agree n h h' hagree hclosed fuel rest hc.2]
termination_by (fuel, sizeOf c)

end

/-- C9: the heap-level `deep_merge` mutates neither input: on a closed heap
a successful run leaves every previously allocated cell unchanged (the only
heap effect is the allocation of fresh result cells at addresses at or
beyond the old heap length), so both `base_dict` and `override_dict` have
the same structural read-out before and after the call. -/
theorem deep_merge_pure (fuel : Nat) (h : Heap) (a b : Nat)
    (h' : Heap) (r : Nat)
    (hclosed : heapClosedB h = true)
    (ha : a < h.length) (hb : b < h.length)
    (hrun : deepMergeH fuel h a b = some (h', r)) :
    (∀ i, i < h.length → h'[i]? = h[i]?) ∧
    h.length ≤ r ∧
    (∀ f, readVal f h' (HVal.ref a) = readVal f h (HVal.ref a)) ∧
    (∀ f, readVal f h' (HVal.ref b) = readVal f h (HVal.ref b)) := by
  obtain ⟨hlen, hagree, hr⟩ := deepMergeH_preserve fuel h a b h' r hrun
  have hcl : ∀ i c, i < h.length → h[i]? = some c →
      cellRefsBelow h.length c = true := by
    intro i c hi hic
    have hmem : c ∈ h := List.getElem?_mem hic
    have hall := List.all_eq_true.mp (by simpa [heapClosedB] using hclosed)
    exact hall c hmem
  refine ⟨hagree, hr, ?_, ?_⟩
  · intro f
    exact readVal_agree h.length h h' hagree hcl f (HVal.ref a)
      (by simp [refsBelow, ha])
  · intro f
    exact readVal_agree h.length h h' hagree hcl f (HVal.ref b)
      (by simp [refsBelow, hb])

/-- Concrete closed heap for the C9 witness: cell 0 is the base dict (with a
nested dict at cell 2), cell 1 the override dict (with a nested dict at
cell 3 under the same key, plus a sequence value). -/
def wHeapC9 : Heap :=
  [[("sub", HVal.ref 2), ("x", HVal.prim "1")],
   [("sub", HVal.ref 3), ("y", HVal.list [HVal.prim "2"])],
   [("a", HVal.prim "1"), ("b", HVal.prim "9")],
   [("a", HVal.prim "2")]]

/-- The heap after merging cells 0 and 1 of `wHeapC9`: the four original
cells unchanged, plus the result cell 4 and the recursively merged nested
dict at cell 5. -/
def wHeapC9out : Heap :=
  wHeapC9 ++
    [[("sub", HVal.ref 5), ("x", HVal.prim "1"),
      ("y", HVal.list [HVal.prim "2"])],
     [("a", HVal.prim "2"), ("b", HVal.prim "9")]]

/-- Witness for C9: a concrete run of the heap-level merge (exercising the
recursive dict-dict branch) leaves all previously allocated cells and the
read-outs of both inputs unchanged. -/
theorem deep_merge_pure_witness :
    (heapClosedB wHeapC9 = true ∧
     deepMergeH 3 wHeapC9 0 1 = some (wHeapC9out, 4)) ∧
    ((∀ i, i < wHeapC9.length → wHeapC9out[i]? = wHeapC9[i]?) ∧
     wHeapC9.length ≤ 4 ∧
     (∀ f, readVal f wHeapC9out (HVal.ref 0) = readVal f wHeapC9 (HVal.ref 0)) ∧
     (∀ f, readVal f wHeapC9out (HVal.ref 1) = readVal f wHeapC9 (HVal.ref 1))) :=
  ⟨⟨rfl, rfl⟩,
   deep_merge_pure 3 wHeapC9 0 1 wHeapC9out 4 rfl (by decide) (by decide) rfl⟩

end MpcK3s
